import Mathlib

/-!
Shallow embedding of the tox-node orchestrator (src/src/main.rs) and proofs
about it.  Keys are byte lists; the external crypto collaborator
(`SecretKey::public_key`) is a parameter `derive`; the file system is an
`Option FsFile` for the single keys-file path.
-/

namespace ToxNode

/-- Size in bytes of a public key (`PUBLICKEYBYTES` from the external
crypto_core collaborator). -/
def PUBLICKEYBYTES : Nat := 32

/-- Size in bytes of a secret key (`SECRETKEYBYTES` from the external
crypto_core collaborator). -/
def SECRETKEYBYTES : Nat := 32

/-- Channel size for onion messages between UDP and TCP relay
(`ONION_CHANNEL_SIZE` in main.rs). -/
def ONION_CHANNEL_SIZE : Nat := 32

/-- `fn version()` (main.rs lines 64-72): asserts each component is below
1000 (an assert failure is a fatal error, modelled as `Except.error` with the
assert message) and returns `3000000000 + major*1000000 + minor*1000 + patch`
as a `u32` (modelled with an explicit reduction modulo `2 ^ 32`). -/
def version (major minor patch : Nat) : Except String Nat :=
  if major < 1000 then
    if minor < 1000 then
      if patch < 1000 then
        Except.ok ((3000000000 + major * 1000000 + minor * 1000 + patch) % 2 ^ 32)
      else Except.error "Invalid patch version"
    else Except.error "Invalid minor version"
  else Except.error "Invalid major version"

/-- A file in the model file system: its byte contents and its unix
permission bits (main.rs creates the keys file with `.mode(0o600)`). -/
structure FsFile where
  contents : List Nat
  mode : Nat
  deriving DecidableEq, Repr

/-- `fn save_keys` (main.rs lines 85-99): creates the keys file with
owner-only permission `0o600` and writes the public key bytes followed by the
first `SECRETKEYBYTES` bytes of the secret key, with no framing. -/
def save_keys (pk sk : List Nat) : FsFile :=
  { contents := pk ++ sk.take SECRETKEYBYTES, mode := 0o600 }

/-- `fn load_keys` (main.rs lines 102-109): `read_exact` fills a buffer of
`PUBLICKEYBYTES + SECRETKEYBYTES` bytes (failing if the file is shorter,
ignoring any trailing bytes), splits it into public and secret halves, and
asserts that the public half equals the key derived from the secret half
(`sk.public_key()`, the external `derive`).  Each `expect`/`assert` failure
is a fatal error, modelled as `Except.error` with its message. -/
def load_keys (derive : List Nat → List Nat) (file : List Nat) :
    Except String (List Nat × List Nat) :=
  if file.length < PUBLICKEYBYTES + SECRETKEYBYTES then
    Except.error "Failed to read keys from the keys file"
  else if (file.take (PUBLICKEYBYTES + SECRETKEYBYTES)).take PUBLICKEYBYTES =
      derive ((file.take (PUBLICKEYBYTES + SECRETKEYBYTES)).drop PUBLICKEYBYTES) then
    Except.ok ((file.take (PUBLICKEYBYTES + SECRETKEYBYTES)).take PUBLICKEYBYTES,
      (file.take (PUBLICKEYBYTES + SECRETKEYBYTES)).drop PUBLICKEYBYTES)
  else
    Except.error "The loaded public key does not correspond to the loaded secret key"

/-- `fn load_or_gen_keys` (main.rs lines 113-124): if the keys file exists it
is loaded with `load_keys`; if opening fails with not-found, a fresh pair
`gen` (the external `gen_keypair()`) is generated, saved with `save_keys`,
and returned.  The result also carries the resulting file-system state for
the keys-file path. -/
def load_or_gen_keys (derive : List Nat → List Nat) (gen : List Nat × List Nat)
    (fs : Option FsFile) : Except String ((List Nat × List Nat) × Option FsFile) :=
  match fs with
  | some file =>
    (load_keys derive file.contents).map (fun ks => (ks, some file))
  | none =>
    Except.ok (gen, some (save_keys gen.1 gen.2))

/-- A socket address (only emptiness/presence of address lists matters to the
orchestrator logic modelled here). -/
def SocketAddr : Type := String × Nat

instance : DecidableEq SocketAddr := by
  unfold SocketAddr
  infer_instance

/-- The configuration fields of `NodeConfig` that main.rs reads in the
startup path modelled here. -/
structure NodeConfig where
  sk : Option (List Nat)
  keys_file : Option String
  tcp_addrs : List SocketAddr
  udp_addr : Option SocketAddr

/-- Identity resolution in `fn main` (main.rs lines 312-318): an explicit
secret key wins and is paired with its derived public key without touching
the file system; otherwise a configured keys-file path goes through
`load_or_gen_keys`; otherwise startup fails fatally. -/
def resolve_identity (derive : List Nat → List Nat) (gen : List Nat × List Nat)
    (sk : Option (List Nat)) (keys_file : Option String) (fs : Option FsFile) :
    Except String ((List Nat × List Nat) × Option FsFile) :=
  match sk with
  | some s => Except.ok ((derive s, s), fs)
  | none =>
    match keys_file with
    | some _ => load_or_gen_keys derive gen fs
    | none => Except.error "Neither secret key nor keys file is specified"

/-- The payload type carried by an onion channel: `(OnionRequest, SocketAddr)`
or `(InnerOnionResponse, SocketAddr)` in main.rs. -/
inductive MsgKind where
  | onionRequest
  | innerOnionResponse
  deriving DecidableEq, Repr

/-- The two engines connected by the bridge: the UDP DHT server (discovery
engine) and the TCP relay server (relay engine). -/
inductive Engine where
  | discovery
  | relay
  deriving DecidableEq, Repr

/-- One bounded mpsc channel allocated by `create_onion_streams`, identified
by allocation order, with its capacity and payload type. -/
structure Channel where
  id : Nat
  capacity : Nat
  payload : MsgKind
  deriving DecidableEq, Repr

/-- The channel `(udp_onion_tx, udp_onion_rx) = mpsc::channel(ONION_CHANNEL_SIZE)`
(main.rs line 165); by the field types of `UdpOnion.tx` and `TcpOnion.rx` it
carries `(InnerOnionResponse, SocketAddr)` pairs. -/
def udpOnionChannel : Channel :=
  { id := 0, capacity := ONION_CHANNEL_SIZE, payload := MsgKind.innerOnionResponse }

/-- The channel `(tcp_onion_tx, tcp_onion_rx) = mpsc::channel(ONION_CHANNEL_SIZE)`
(main.rs line 166); by the field types of `TcpOnion.tx` and `UdpOnion.rx` it
carries `(OnionRequest, SocketAddr)` pairs. -/
def tcpOnionChannel : Channel :=
  { id := 1, capacity := ONION_CHANNEL_SIZE, payload := MsgKind.onionRequest }

/-- `struct TcpOnion` (main.rs lines 148-153): the relay side's endpoints,
as the channels the two halves belong to. -/
structure TcpOnion where
  tx : Channel
  rx : Channel
  deriving DecidableEq, Repr

/-- `struct UdpOnion` (main.rs lines 156-161): the discovery side's
endpoints, as the channels the two halves belong to. -/
structure UdpOnion where
  tx : Channel
  rx : Channel
  deriving DecidableEq, Repr

/-- `fn create_onion_streams` (main.rs lines 164-176): allocates the two
channels and wires `TcpOnion { tx: tcp_onion_tx, rx: udp_onion_rx }` and
`UdpOnion { tx: udp_onion_tx, rx: tcp_onion_rx }`. -/
def create_onion_streams : TcpOnion × UdpOnion :=
  ({ tx := tcpOnionChannel, rx := udpOnionChannel },
   { tx := udpOnionChannel, rx := tcpOnionChannel })

/-- The engine holding the send half of a channel: `run_tcp` gives
`tcp_onion.tx` to the relay server (`set_udp_onion_sink`, line 189) and
`run_udp` gives `udp_onion.tx` to the discovery server (`set_tcp_onion_sink`,
line 251). -/
def producerOfChannel (c : Channel) : Option Engine :=
  if c = create_onion_streams.1.tx then some Engine.relay
  else if c = create_onion_streams.2.tx then some Engine.discovery
  else none

/-- The engine consuming the receive half of a channel: `run_tcp` drives
`tcp_onion.rx` into the relay server (lines 204-211) and `run_udp` drives
`udp_onion.rx` into the discovery server (lines 255-262). -/
def consumerOfChannel (c : Channel) : Option Engine :=
  if c = create_onion_streams.1.rx then some Engine.relay
  else if c = create_onion_streams.2.rx then some Engine.discovery
  else none

/-- What consumes an onion receive half: either the trivial drain loop
`rx.for_each(|_| future::ok(()))` used when the corresponding engine is not
started, or the engine's handler wrapped in a warn-and-continue `or_else`. -/
inductive Consumer where
  | drainDiscard
  | handleUdpOnionResponse
  | handleTcpOnionRequest
  deriving DecidableEq, Repr

/-- Which consumer `run_tcp` (main.rs lines 178-218) attaches to
`tcp_onion.rx`: the drain loop when `config.tcp_addrs` is empty (lines
179-186), else the relay server's `handle_udp_onion_response` handler
(lines 204-211). -/
def run_tcp_consumer (tcp_addrs : List SocketAddr) : Consumer :=
  if tcp_addrs.isEmpty then Consumer.drainDiscard
  else Consumer.handleUdpOnionResponse

/-- Which consumer `run_udp` (main.rs lines 220-277) attaches to
`udp_onion.rx`: the drain loop when `config.udp_addr` is absent (lines
221-230), else the discovery server's `handle_tcp_onion_request` handler
(lines 255-262). -/
def run_udp_consumer (udp_addr : Option SocketAddr) : Consumer :=
  if udp_addr.isNone then Consumer.drainDiscard
  else Consumer.handleTcpOnionRequest

/-- One scheduler step of a producer sending into a bounded channel whose
receive half is driven by the drain loop `rx.for_each(|_| future::ok(()))`.
State: (items the producer still has to send, items queued in the channel).
The producer's `send` completes whenever the queue is below capacity; when
it is full the sender is suspended and the drain consumer, which is always
ready, receives and discards one item. -/
def bridgeStep (cap : Nat) (s : Nat × Nat) : Nat × Nat :=
  if 0 < s.1 ∧ s.2 < cap then (s.1 - 1, s.2 + 1)
  else if 0 < s.2 then (s.1, s.2 - 1)
  else s

/-- All `n` sends into a drained channel of capacity `cap` complete within
`2 * n` scheduler steps: no send suspends forever. -/
def allSendsComplete (cap n : Nat) : Prop :=
  ((bridgeStep cap)^[2 * n] (n, 0)).1 = 0

/-- Termination denotation of a long-running future: `none` when it never
terminates, `some (t, r)` when it terminates at time `t` with result `r`
(the payload of an `Ok` is dropped, as main.rs always maps it away). -/
inductive FOutcome (ε : Type) where
  | ok
  | err (e : ε)
  deriving DecidableEq, Repr

/-- A future's termination behaviour. -/
def Fut (ε : Type) : Type := Option (Nat × FOutcome ε)

instance (ε : Type) [DecidableEq ε] : DecidableEq (Fut ε) := by
  unfold Fut
  infer_instance

/-- `a.select(b)` from futures 0.1 (main.rs line 337 and line 275): the
combined future terminates as soon as either side terminates, with that
side's result; `a` is polled first, so it wins ties. -/
def selectF {ε : Type} (a b : Fut ε) : Fut ε :=
  match a, b with
  | none, b => b
  | some x, none => some x
  | some (ta, ra), some (tb, rb) =>
    if ta ≤ tb then some (ta, ra) else some (tb, rb)

/-- `future::select_all` over the listener futures (main.rs line 200),
composed with `.map(|_| ())` and `.map_err(|(e, _, _)| e)`: the first future
of the list to terminate gives the result, earlier entries winning ties
since they are polled first. -/
def select_allF {ε : Type} : List (Fut ε) → Fut ε
  | [] => none
  | f :: fs => selectF f (select_allF fs)

/-- `a.join(b)` from futures 0.1 (main.rs line 216): terminates with the
first error of either side as soon as it happens, or with `ok` once both
sides have terminated with `ok`; otherwise it never terminates. -/
def joinF {ε : Type} (a b : Fut ε) : Fut ε :=
  match a, b with
  | some (ta, FOutcome.err e), some (tb, FOutcome.err f) =>
    if ta ≤ tb then some (ta, FOutcome.err e) else some (tb, FOutcome.err f)
  | some (ta, FOutcome.err e), _ => some (ta, FOutcome.err e)
  | _, some (tb, FOutcome.err f) => some (tb, FOutcome.err f)
  | some (ta, FOutcome.ok), some (tb, FOutcome.ok) => some (max ta tb, FOutcome.ok)
  | _, _ => none

/-- Termination behaviour of the future returned by `run_tcp` (main.rs lines
178-218): with no TCP addresses it is just the drain loop over
`tcp_onion.rx` (`Either::A`); otherwise it is
`select_all(listeners).join(tcp_onion_future).map(|_| ())` (`Either::B`),
where `listeners` are the per-address `tcp_server_c.run(...)` futures and
`onion` is the onion-bridging loop over `tcp_onion.rx`. -/
def run_tcp_fut {ε : Type} (tcp_addrs : List SocketAddr)
    (listeners : List (Fut ε)) (onion : Fut ε) : Fut ε :=
  if tcp_addrs.isEmpty then onion
  else joinF (select_allF listeners) onion

/-- The process-level combination (main.rs line 337):
`udp_server_future.select(tcp_server_future).map(|_| ()).map_err(|(e, _)| e)`. -/
def main_fut {ε : Type} (udp tcp : Fut ε) : Fut ε :=
  selectF udp tcp

/-- `Stream::for_each` over the items of an onion receive half, with the
body returning `Except`: the loop stops with the body's first error,
otherwise processes every item and collects what the bodies logged. -/
def forEachLog {α ε : Type} (f : α → Except ε (List ε)) :
    List α → Except ε (List ε)
  | [] => Except.ok []
  | x :: xs =>
    match f x with
    | Except.error e => Except.error e
    | Except.ok logs => (forEachLog f xs).map (fun rest => logs ++ rest)

/-- The body of the onion bridging loops (main.rs lines 206-210 and
257-261): run the engine's handler on the item and, on error, log a warning
(`warn!`) and continue with `future::ok(())`. -/
def or_else_log {α ε : Type} (handler : α → Except ε Unit) (item : α) :
    Except ε (List ε) :=
  match handler item with
  | Except.ok _ => Except.ok []
  | Except.error e => Except.ok [e]

/-- The warning an item contributes to the log: the handler's error on that
item, if any. -/
def handlerWarning {α ε : Type} (handler : α → Except ε Unit) (item : α) :
    Option ε :=
  match handler item with
  | Except.ok _ => none
  | Except.error e => some e

/-- The state reached by `fn main` once it is past all fatal startup checks
(main.rs lines 329-339): the resolved identity, the resulting file-system
state, the bridge endpoints, and the consumers attached to the two onion
receive halves. -/
structure Running where
  keys : List Nat × List Nat
  fs : Option FsFile
  bridge : TcpOnion × UdpOnion
  tcpConsumer : Consumer
  udpConsumer : Consumer

/-- The startup path of `fn main` (main.rs lines 312-331): resolve the
identity (lines 312-318), then fail fatally when both the TCP address list
is empty and the UDP address is absent (lines 320-322), and otherwise build
the bridge and attach the consumers (lines 331-339). -/
def main_startup (derive : List Nat → List Nat) (gen : List Nat × List Nat)
    (config : NodeConfig) (fs : Option FsFile) : Except String Running :=
  match resolve_identity derive gen config.sk config.keys_file fs with
  | Except.error e => Except.error e
  | Except.ok (keys, fs₂) =>
    if config.tcp_addrs.isEmpty && config.udp_addr.isNone then
      Except.error "Both TCP addresses and UDP address are not defined."
    else
      Except.ok
        { keys := keys, fs := fs₂, bridge := create_onion_streams,
          tcpConsumer := run_tcp_consumer config.tcp_addrs,
          udpConsumer := run_udp_consumer config.udp_addr }

/-! Theorems -/

theorem take_append_of_length (l1 l2 : List Nat) (n : Nat) (h : l1.length = n) :
    (l1 ++ l2).take n = l1 := by
  rw [← h]
  exact List.take_left l1 l2

theorem drop_append_of_length (l1 l2 : List Nat) (n : Nat) (h : l1.length = n) :
    (l1 ++ l2).drop n = l2 := by
  rw [← h]
  exact List.drop_left l1 l2

theorem load_keys_of_consistent (derive : List Nat → List Nat) (pk sk : List Nat)
    (hpk : pk.length = PUBLICKEYBYTES) (hsk : sk.length = SECRETKEYBYTES)
    (hcons : pk = derive sk) (rest : List Nat) :
    load_keys derive (pk ++ sk ++ rest) = Except.ok (pk, sk) := by
  have hps : (pk ++ sk).length = PUBLICKEYBYTES + SECRETKEYBYTES := by
    rw [List.length_append, hpk, hsk]
  have hbuf : (pk ++ sk ++ rest).take (PUBLICKEYBYTES + SECRETKEYBYTES) = pk ++ sk :=
    take_append_of_length (pk ++ sk) rest _ hps
  have hlen : (pk ++ sk ++ rest).length = PUBLICKEYBYTES + SECRETKEYBYTES + rest.length := by
    rw [List.length_append, hps]
  have hpk2 : (pk ++ sk).take PUBLICKEYBYTES = pk := take_append_of_length pk sk _ hpk
  have hsk2 : (pk ++ sk).drop PUBLICKEYBYTES = sk := drop_append_of_length pk sk _ hpk
  unfold load_keys
  rw [if_neg (by omega), hbuf, hpk2, hsk2, if_pos hcons]

theorem load_keys_never_corrects (derive : List Nat → List Nat)
    (f pk sk : List Nat) (h : load_keys derive f = Except.ok (pk, sk)) :
    pk = derive sk := by
  unfold load_keys at h
  by_cases h1 : f.length < PUBLICKEYBYTES + SECRETKEYBYTES
  · rw [if_pos h1] at h
    cases h
  · rw [if_neg h1] at h
    by_cases h2 : (f.take (PUBLICKEYBYTES + SECRETKEYBYTES)).take PUBLICKEYBYTES =
        derive ((f.take (PUBLICKEYBYTES + SECRETKEYBYTES)).drop PUBLICKEYBYTES)
    · rw [if_pos h2] at h
      obtain ⟨h3, h4⟩ := Prod.mk.injEq .. ▸ Except.ok.inj h
      rw [← h3, ← h4]
      exact h2
    · rw [if_neg h2] at h
      cases h

/-- Claim C4: for components below 1000 the version function returns exactly
`3000000000 + major*1000000 + minor*1000 + patch` (which fits in a `u32`, so
the `% 2 ^ 32` reduction is the identity), the map is injective on such
triples, and the result is a ten-digit number whose leading decimal digit is
3 (its quotient by `10 ^ 9`). -/
theorem C4_version_encoding (m n p m2 n2 p2 : Nat)
    (hm : m < 1000) (hn : n < 1000) (hp : p < 1000)
    (hm2 : m2 < 1000) (hn2 : n2 < 1000) (hp2 : p2 < 1000) :
    version m n p = Except.ok (3000000000 + m * 1000000 + n * 1000 + p) ∧
    (version m n p = version m2 n2 p2 → m = m2 ∧ n = n2 ∧ p = p2) ∧
    (3000000000 + m * 1000000 + n * 1000 + p) / 1000000000 = 3 ∧
    3000000000 + m * 1000000 + n * 1000 + p < 10000000000 ∧
    3000000000 + m * 1000000 + n * 1000 + p < 4294967296 := by
  have hval : ∀ a b c : Nat, a < 1000 → b < 1000 → c < 1000 →
      version a b c = Except.ok (3000000000 + a * 1000000 + b * 1000 + c) := by
    intro a b c ha hb hc
    unfold version
    rw [if_pos ha, if_pos hb, if_pos hc]
    congr 1
    apply Nat.mod_eq_of_lt
    have : 2 ^ 32 = 4294967296 := by norm_num
    omega
  refine ⟨hval m n p hm hn hp, ?_, by omega, by omega, by omega⟩
  intro heq
  rw [hval m n p hm hn hp, hval m2 n2 p2 hm2 hn2 hp2] at heq
  have heq2 := Except.ok.inj heq
  omega

/-- Witness for C4 at the concrete triple (0, 11, 2). -/
theorem C4_version_encoding_witness :
    version 0 11 2 = Except.ok (3000000000 + 0 * 1000000 + 11 * 1000 + 2) ∧
    (3000000000 + 0 * 1000000 + 11 * 1000 + 2) / 1000000000 = 3 :=
  ⟨(C4_version_encoding 0 11 2 0 11 2 (by decide) (by decide) (by decide)
      (by decide) (by decide) (by decide)).1,
   (C4_version_encoding 0 11 2 0 11 2 (by decide) (by decide) (by decide)
      (by decide) (by decide) (by decide)).2.2.1⟩

/-- Claim C5: a keys file whose public half does not equal the key derived
from its secret half makes `load_keys` fail fatally with the assert's error,
and `load_keys` never returns a corrected pair: any successful load returns
a pair whose public key is exactly the one derived from its secret key. -/
theorem C5_mismatch_fatal (derive : List Nat → List Nat) (file : List Nat)
    (hlen : PUBLICKEYBYTES + SECRETKEYBYTES ≤ file.length)
    (hmis : (file.take (PUBLICKEYBYTES + SECRETKEYBYTES)).take PUBLICKEYBYTES ≠
      derive ((file.take (PUBLICKEYBYTES + SECRETKEYBYTES)).drop PUBLICKEYBYTES)) :
    load_keys derive file =
      Except.error "The loaded public key does not correspond to the loaded secret key" ∧
    ∀ f pk sk : List Nat, load_keys derive f = Except.ok (pk, sk) → pk = derive sk := by
  constructor
  · unfold load_keys
    rw [if_neg (by omega), if_neg hmis]
  · exact load_keys_never_corrects derive

/-- Witness for C5: a 64-byte file of zeros with a derivation that maps the
secret half to ones. -/
theorem C5_mismatch_fatal_witness :
    load_keys (fun l => l.map (fun b => b + 1)) (List.replicate 64 0) =
      Except.error "The loaded public key does not correspond to the loaded secret key" :=
  (C5_mismatch_fatal (fun l => l.map (fun b => b + 1)) (List.replicate 64 0)
    (by decide) (by decide)).1

/-- Claim C6: with the keys file absent, `load_or_gen_keys` returns the
freshly generated pair and writes public key bytes followed by secret key
bytes with no framing, with owner-only permission `0o600`; loading that file
back with a second `load_or_gen_keys` call returns the identical pair. -/
theorem C6_gen_persist_roundtrip (derive : List Nat → List Nat) (pk sk : List Nat)
    (hpk : pk.length = PUBLICKEYBYTES) (hsk : sk.length = SECRETKEYBYTES)
    (hcons : pk = derive sk) :
    load_or_gen_keys derive (pk, sk) none =
      Except.ok ((pk, sk), some { contents := pk ++ sk, mode := 0o600 }) ∧
    load_or_gen_keys derive (pk, sk) (some { contents := pk ++ sk, mode := 0o600 }) =
      Except.ok ((pk, sk), some { contents := pk ++ sk, mode := 0o600 }) := by
  have htake : sk.take SECRETKEYBYTES = sk := List.take_of_length_le (le_of_eq hsk)
  constructor
  · simp [load_or_gen_keys, save_keys, htake]
  · have hload : load_keys derive (pk ++ sk) = Except.ok (pk, sk) := by
      have h0 : pk ++ sk = pk ++ sk ++ [] := by simp
      rw [h0]
      exact load_keys_of_consistent derive pk sk hpk hsk hcons []
    simp [load_or_gen_keys, hload, Except.map]

/-- Witness for C6 with the identity derivation on a pair of equal 32-byte
keys. -/
theorem C6_gen_persist_roundtrip_witness :
    load_or_gen_keys id (List.replicate 32 7, List.replicate 32 7) none =
      Except.ok ((List.replicate 32 7, List.replicate 32 7),
        some { contents := List.replicate 32 7 ++ List.replicate 32 7, mode := 0o600 }) ∧
    load_or_gen_keys id (List.replicate 32 7, List.replicate 32 7)
        (some { contents := List.replicate 32 7 ++ List.replicate 32 7, mode := 0o600 }) =
      Except.ok ((List.replicate 32 7, List.replicate 32 7),
        some { contents := List.replicate 32 7 ++ List.replicate 32 7, mode := 0o600 }) :=
  C6_gen_persist_roundtrip id (List.replicate 32 7) (List.replicate 32 7)
    (by decide) (by decide) rfl

/-- Claim C7: with an explicit secret key configured, identity resolution
returns the derived public key paired with that secret key, the file-system
state is passed through unchanged, and the result does not depend on the
keys-file path or on the file contents. -/
theorem C7_explicit_sk_no_io (derive : List Nat → List Nat)
    (gen : List Nat × List Nat) (s : List Nat) (keys_file : Option String)
    (fs : Option FsFile) :
    resolve_identity derive gen (some s) keys_file fs = Except.ok ((derive s, s), fs) :=
  rfl

/-- Claim C10: a file whose first `PUBLICKEYBYTES + SECRETKEYBYTES` bytes
form a consistent pair loads successfully to exactly that pair with any
trailing bytes ignored, while a shorter file fails fatally. -/
theorem C10_trailing_bytes_ignored (derive : List Nat → List Nat)
    (pk sk extra short : List Nat)
    (hpk : pk.length = PUBLICKEYBYTES) (hsk : sk.length = SECRETKEYBYTES)
    (hcons : pk = derive sk)
    (hshort : short.length < PUBLICKEYBYTES + SECRETKEYBYTES) :
    load_keys derive (pk ++ sk ++ extra) = Except.ok (pk, sk) ∧
    load_keys derive short = Except.error "Failed to read keys from the keys file" := by
  constructor
  · exact load_keys_of_consistent derive pk sk hpk hsk hcons extra
  · unfold load_keys
    rw [if_pos hshort]

/-- Witness for C10: a consistent 64-byte prefix of ones followed by three
junk bytes, and the short file `[5]`. -/
theorem C10_trailing_bytes_ignored_witness :
    load_keys id (List.replicate 32 1 ++ List.replicate 32 1 ++ [7, 8, 9]) =
      Except.ok (List.replicate 32 1, List.replicate 32 1) ∧
    load_keys id [5] = Except.error "Failed to read keys from the keys file" :=
  C10_trailing_bytes_ignored id (List.replicate 32 1) (List.replicate 32 1)
    [7, 8, 9] [5] (by decide) (by decide) rfl (by decide)

theorem bridgeStep_fst_zero (cap : Nat) : ∀ (k q : Nat), ((bridgeStep cap)^[k] (0, q)).1 = 0 := by
  intro k
  induction k with
  | zero => intro q; rfl
  | succ n ih =>
    intro q
    rw [Function.iterate_succ_apply]
    by_cases hq : 0 < q
    · have e : bridgeStep cap (0, q) = (0, q - 1) := by simp [bridgeStep, hq]
      rw [e]
      exact ih (q - 1)
    · have e : bridgeStep cap (0, q) = (0, q) := by simp [bridgeStep, hq]
      rw [e]
      exact ih q

theorem bridgeStep_two (cap p q : Nat) (hcap : 0 < cap) (hp : 0 < p) (hq : q ≤ cap) :
    ((bridgeStep cap)^[2] (p, q)).1 < p ∧ ((bridgeStep cap)^[2] (p, q)).2 ≤ cap := by
  have h2 : (bridgeStep cap)^[2] (p, q) = bridgeStep cap (bridgeStep cap (p, q)) := by
    rw [Function.iterate_succ_apply, Function.iterate_one]
  rw [h2]
  by_cases h1 : q < cap
  · have e1 : bridgeStep cap (p, q) = (p - 1, q + 1) := by simp [bridgeStep, hp, h1]
    rw [e1]
    by_cases hp1 : 0 < p - 1
    · by_cases hq1 : q + 1 < cap
      · have e2 : bridgeStep cap (p - 1, q + 1) = (p - 1 - 1, q + 1 + 1) := by
          simp [bridgeStep, hp1, hq1]
        rw [e2]
        exact ⟨by simp; omega, by simp; omega⟩
      · have e2 : bridgeStep cap (p - 1, q + 1) = (p - 1, q + 1 - 1) := by
          simp [bridgeStep, hq1]
        rw [e2]
        exact ⟨by simp; omega, by simp; omega⟩
    · have hp1' : p - 1 = 0 := by omega
      rw [hp1']
      have e2 : bridgeStep cap (0, q + 1) = (0, q + 1 - 1) := by simp [bridgeStep]
      rw [e2]
      exact ⟨by simp; omega, by simp; omega⟩
  · have hq0 : 0 < q := by omega
    have e1 : bridgeStep cap (p, q) = (p, q - 1) := by simp [bridgeStep, h1, hq0]
    rw [e1]
    have hql : q - 1 < cap := by omega
    have e2 : bridgeStep cap (p, q - 1) = (p - 1, q - 1 + 1) := by
      simp [bridgeStep, hp, hql]
    rw [e2]
    exact ⟨by simp; omega, by simp; omega⟩

theorem bridgeStep_terminates (cap : Nat) (hcap : 0 < cap) :
    ∀ (k p q : Nat), p ≤ k → q ≤ cap → ((bridgeStep cap)^[2 * k] (p, q)).1 = 0 := by
  intro k
  induction k with
  | zero =>
    intro p q hp hq
    have hzero : p = 0 := by omega
    subst hzero
    rfl
  | succ n ih =>
    intro p q hp hq
    by_cases hp0 : 0 < p
    · obtain ⟨hlt, hle⟩ := bridgeStep_two cap p q hcap hp0 hq
      have hrw : 2 * (n + 1) = 2 * n + 2 := by ring
      rw [hrw, Function.iterate_add_apply]
      have happ := ih ((bridgeStep cap)^[2] (p, q)).1 ((bridgeStep cap)^[2] (p, q)).2
        (by omega) hle
      rw [Prod.mk.eta] at happ
      exact happ
    · have hzero : p = 0 := by omega
      subst hzero
      exact bridgeStep_fst_zero cap (2 * (n + 1)) q

/-- Claim C1: with no TCP addresses configured, `run_tcp` attaches the
trivial drain consumer to the channel the absent relay engine would have
consumed, and symmetrically `run_udp` with no UDP address; with the drain
consumer always ready, every one of `n > 32` sends into the capacity-32
channel completes within `2 * n` scheduler steps, so no send suspends
forever. -/
theorem C1_drain_on_absence (tcp_addrs : List SocketAddr)
    (udp_addr : Option SocketAddr) (n : Nat)
    (htcp : tcp_addrs = []) (hudp : udp_addr = none) (_hn : 32 < n) :
    run_tcp_consumer tcp_addrs = Consumer.drainDiscard ∧
    run_udp_consumer udp_addr = Consumer.drainDiscard ∧
    allSendsComplete ONION_CHANNEL_SIZE n := by
  subst htcp
  subst hudp
  refine ⟨rfl, rfl, ?_⟩
  unfold allSendsComplete
  exact bridgeStep_terminates ONION_CHANNEL_SIZE (by decide) n n 0 le_rfl (by decide)

/-- Witness for C1 with 33 sends. -/
theorem C1_drain_on_absence_witness :
    run_tcp_consumer [] = Consumer.drainDiscard ∧
    run_udp_consumer none = Consumer.drainDiscard ∧
    allSendsComplete ONION_CHANNEL_SIZE 33 :=
  C1_drain_on_absence [] none 33 rfl rfl (by decide)

/-- Claim C8: the onion bridging loops wrap the engine handler in a
warn-and-continue `or_else`, so the loop over any item list completes with
`ok` after processing every item, never escalating a per-item failure, and
the warnings logged are exactly the errors of the rejected items. -/
theorem C8_per_item_failures_absorbed (α ε : Type) (handler : α → Except ε Unit)
    (items : List α) :
    forEachLog (or_else_log handler) items =
      Except.ok (items.filterMap (handlerWarning handler)) := by
  induction items with
  | nil => rfl
  | cons x xs ih =>
    cases h : handler x with
    | ok v =>
      have hfx : or_else_log handler x = Except.ok [] := by simp [or_else_log, h]
      have hw : handlerWarning handler x = none := by simp [handlerWarning, h]
      simp [forEachLog, hfx, hw, ih, Except.map]
    | error e =>
      have hfx : or_else_log handler x = Except.ok [e] := by simp [or_else_log, h]
      have hw : handlerWarning handler x = some e := by simp [handlerWarning, h]
      simp [forEachLog, hfx, hw, ih, Except.map]

/-- Claim C9: a configuration with an empty TCP address list and no UDP
address never reaches the running state: `main_startup` cannot return
`Except.ok`, whatever the identity configuration and file system. -/
theorem C9_no_transports_fatal (derive : List Nat → List Nat)
    (gen : List Nat × List Nat) (config : NodeConfig) (fs : Option FsFile)
    (htcp : config.tcp_addrs = []) (hudp : config.udp_addr = none) :
    ∀ r : Running, main_startup derive gen config fs ≠ Except.ok r := by
  intro r h
  unfold main_startup at h
  cases hres : resolve_identity derive gen config.sk config.keys_file fs with
  | error e =>
    rw [hres] at h
    cases h
  | ok val =>
    obtain ⟨keys, fs₂⟩ := val
    rw [hres] at h
    simp [htcp, hudp] at h

/-- Witness for C9 at a concrete configuration with an explicit secret key
but no transports. -/
theorem C9_no_transports_fatal_witness :
    main_startup id (List.replicate 32 7, List.replicate 32 7)
      { sk := some [1], keys_file := none, tcp_addrs := [], udp_addr := none }
      none ≠
    Except.ok
      { keys := ([1], [1]), fs := none, bridge := create_onion_streams,
        tcpConsumer := Consumer.drainDiscard, udpConsumer := Consumer.drainDiscard } :=
  C9_no_transports_fatal id (List.replicate 32 7, List.replicate 32 7)
    { sk := some [1], keys_file := none, tcp_addrs := [], udp_addr := none }
    none rfl rfl
    { keys := ([1], [1]), fs := none, bridge := create_onion_streams,
      tcpConsumer := Consumer.drainDiscard, udpConsumer := Consumer.drainDiscard }

/-- Claim C2 as stated is false on the code: the channel produced by the
discovery engine and consumed by the relay engine carries inner onion
responses, not onion requests, and the channel produced by the relay engine
and consumed by the discovery engine carries onion requests, not onion
responses — the two message kinds are the opposite of the claim. -/
theorem C2_counterexample :
    (producerOfChannel udpOnionChannel = some Engine.discovery ∧
     consumerOfChannel udpOnionChannel = some Engine.relay ∧
     udpOnionChannel.payload ≠ MsgKind.onionRequest) ∧
    (producerOfChannel tcpOnionChannel = some Engine.relay ∧
     consumerOfChannel tcpOnionChannel = some Engine.discovery ∧
     tcpOnionChannel.payload ≠ MsgKind.innerOnionResponse) := by
  decide

/-- Claim C2 amended: `create_onion_streams` allocates exactly two distinct
bounded channels of capacity 32; the channel carrying discovery-produced
items to the relay engine carries inner onion responses and the channel
carrying relay-produced items to the discovery engine carries onion
requests; each side receives the send half of the channel consumed by the
other engine and the receive half of the channel produced by the other
engine. -/
theorem C2_bridge_wiring :
    create_onion_streams.1.tx = tcpOnionChannel ∧
    create_onion_streams.1.rx = udpOnionChannel ∧
    create_onion_streams.2.tx = udpOnionChannel ∧
    create_onion_streams.2.rx = tcpOnionChannel ∧
    udpOnionChannel ≠ tcpOnionChannel ∧
    udpOnionChannel.capacity = 32 ∧
    tcpOnionChannel.capacity = 32 ∧
    consumerOfChannel create_onion_streams.1.tx = some Engine.discovery ∧
    producerOfChannel create_onion_streams.1.rx = some Engine.discovery ∧
    consumerOfChannel create_onion_streams.2.tx = some Engine.relay ∧
    producerOfChannel create_onion_streams.2.rx = some Engine.relay ∧
    udpOnionChannel.payload = MsgKind.innerOnionResponse ∧
    tcpOnionChannel.payload = MsgKind.onionRequest := by
  decide

theorem select_allF_eq_none {ε : Type} (l : List (Fut ε)) (h : select_allF l = none) :
    ∀ x ∈ l, x = none := by
  induction l with
  | nil =>
    intro x hx
    cases hx
  | cons f fs ih =>
    intro x hx
    unfold select_allF at h
    cases f with
    | none =>
      have h2 : select_allF fs = none := by simpa [selectF] using h
      rcases List.mem_cons.mp hx with hx | hx
      · exact hx
      · exact ih h2 x hx
    | some val =>
      obtain ⟨tf, rf⟩ := val
      cases hrest : select_allF fs with
      | none =>
        rw [hrest] at h
        simp [selectF] at h
      | some valr =>
        obtain ⟨ts, rs⟩ := valr
        rw [hrest] at h
        simp [selectF] at h
        split at h <;> simp_all

theorem select_allF_min {ε : Type} (l : List (Fut ε)) :
    ∀ (t : Nat) (r : FOutcome ε), select_allF l = some (t, r) →
      some (t, r) ∈ l ∧ ∀ (t2 : Nat) (r2 : FOutcome ε), some (t2, r2) ∈ l → t ≤ t2 := by
  induction l with
  | nil =>
    intro t r h
    cases h
  | cons f fs ih =>
    intro t r h
    unfold select_allF at h
    cases f with
    | none =>
      have h2 : select_allF fs = some (t, r) := by simpa [selectF] using h
      obtain ⟨hmem, hmin⟩ := ih t r h2
      refine ⟨List.mem_cons_of_mem _ hmem, ?_⟩
      intro t2 r2 hx
      rcases List.mem_cons.mp hx with hx | hx
      · cases hx
      · exact hmin t2 r2 hx
    | some val =>
      obtain ⟨tf, rf⟩ := val
      cases hrest : select_allF fs with
      | none =>
        rw [hrest] at h
        have hsome : (some (tf, rf) : Fut ε) = some (t, r) := h
        obtain ⟨ht, hr⟩ := Prod.mk.injEq .. ▸ Option.some.inj hsome
        subst ht
        subst hr
        refine ⟨List.mem_cons_self _ _, ?_⟩
        intro t2 r2 hx
        rcases List.mem_cons.mp hx with hx | hx
        · obtain ⟨he, _⟩ := Prod.mk.injEq .. ▸ Option.some.inj hx.symm
          omega
        · have := select_allF_eq_none fs hrest _ hx
          cases this
      | some valr =>
        obtain ⟨ts, rs⟩ := valr
        rw [hrest] at h
        obtain ⟨hmem, hmin⟩ := ih ts rs hrest
        have hif : selectF (some (tf, rf)) (some (ts, rs)) =
            if tf ≤ ts then some (tf, rf) else some (ts, rs) := rfl
        rw [hif] at h
        by_cases hle : tf ≤ ts
        · rw [if_pos hle] at h
          have hsome : (some (tf, rf) : Fut ε) = some (t, r) := h
          obtain ⟨ht, hr⟩ := Prod.mk.injEq .. ▸ Option.some.inj hsome
          subst ht
          subst hr
          refine ⟨List.mem_cons_self _ _, ?_⟩
          intro t2 r2 hx
          rcases List.mem_cons.mp hx with hx | hx
          · obtain ⟨he, _⟩ := Prod.mk.injEq .. ▸ Option.some.inj hx.symm
            omega
          · have := hmin t2 r2 hx
            omega
        · rw [if_neg hle] at h
          have hsome : (some (ts, rs) : Fut ε) = some (t, r) := h
          obtain ⟨ht, hr⟩ := Prod.mk.injEq .. ▸ Option.some.inj hsome
          subst ht
          subst hr
          refine ⟨List.mem_cons_of_mem _ hmem, ?_⟩
          intro t2 r2 hx
          rcases List.mem_cons.mp hx with hx | hx
          · obtain ⟨he, _⟩ := Prod.mk.injEq .. ▸ Option.some.inj hx.symm
            omega
          · exact hmin t2 r2 hx

theorem joinF_err_left {ε : Type} (t : Nat) (e : ε) (b : Fut ε)
    (hb : ∀ (u : Nat) (f : ε), b ≠ some (u, FOutcome.err f)) :
    joinF (some (t, FOutcome.err e)) b = some (t, FOutcome.err e) := by
  cases b with
  | none => rfl
  | some val =>
    obtain ⟨u, rb⟩ := val
    cases rb with
    | ok => rfl
    | err f => exact absurd rfl (hb u f)

/-- Claim C3 as stated is false on the code: with one TCP listener future
that terminates successfully at time 0 and the onion bridging loop never
terminating, `select_all` reports the listener as first to terminate with
`ok`, yet the relay subsystem future returned by `run_tcp` (the `join` of
the listener group with the onion loop) never terminates, so the first
listener's outcome does not determine the subsystem outcome. -/
theorem C3_counterexample :
    select_allF [some (0, (FOutcome.ok : FOutcome String))] = some (0, FOutcome.ok) ∧
    run_tcp_fut [("0.0.0.0", 443)] [some (0, (FOutcome.ok : FOutcome String))] none = none ∧
    run_tcp_fut [("0.0.0.0", 443)] [some (0, (FOutcome.ok : FOutcome String))] none ≠
      some (0, FOutcome.ok) :=
  ⟨rfl, rfl, by decide⟩

/-- Claim C3 amended: the process outcome is the outcome of whichever of the
discovery and relay subsystem futures terminates first, independent of the
later one's eventual result; within the relay subsystem, `select_all` yields
the earliest-terminating listener, and when that listener terminates with an
error (the onion loop itself never erring), the error is the whole relay
subsystem's outcome at that same time. -/
theorem C3_first_to_terminate (ε : Type) (tu tt t : Nat) (ru rt : FOutcome ε)
    (tcp_addrs : List SocketAddr) (listeners : List (Fut ε)) (onion : Fut ε) (e : ε)
    (hne : tcp_addrs ≠ [])
    (hfirst : select_allF listeners = some (t, FOutcome.err e))
    (honion : ∀ (u : Nat) (f : ε), onion ≠ some (u, FOutcome.err f)) :
    (tu ≤ tt → main_fut (some (tu, ru)) (some (tt, rt)) = some (tu, ru)) ∧
    (tt < tu → main_fut (some (tu, ru)) (some (tt, rt)) = some (tt, rt)) ∧
    main_fut (some (tu, ru)) (none : Fut ε) = some (tu, ru) ∧
    (some (t, FOutcome.err e) ∈ listeners ∧
      ∀ (t2 : Nat) (r2 : FOutcome ε), some (t2, r2) ∈ listeners → t ≤ t2) ∧
    run_tcp_fut tcp_addrs listeners onion = some (t, FOutcome.err e) := by
  refine ⟨?_, ?_, rfl, select_allF_min listeners t (FOutcome.err e) hfirst, ?_⟩

  · intro hle
    simp [main_fut, selectF, hle]
  · intro hlt
    have hnle : ¬ tu ≤ tt := by omega
    simp [main_fut, selectF, hnle]
  · unfold run_tcp_fut
    have hemp : tcp_addrs.isEmpty = false := by
      cases tcp_addrs with
      | nil => exact absurd rfl hne
      | cons a l => rfl
    rw [hemp]
    simp only [Bool.false_eq_true, if_false]
    rw [hfirst]
    exact joinF_err_left t e onion honion

/-- Witness for C3 at concrete futures: the discovery subsystem terminating
first at time 1, and a relay subsystem whose earliest listener errs at
time 3. -/
theorem C3_first_to_terminate_witness :
    main_fut (some (1, (FOutcome.ok : FOutcome String))) (some (2, FOutcome.ok)) =
      some (1, FOutcome.ok) ∧
    run_tcp_fut [("0.0.0.0", 443)]
      [some (3, FOutcome.err "boom"), some (5, (FOutcome.ok : FOutcome String))] none =
      some (3, FOutcome.err "boom") :=
  ⟨(C3_first_to_terminate String 1 2 3 FOutcome.ok FOutcome.ok [("0.0.0.0", 443)]
      [some (3, FOutcome.err "boom"), some (5, FOutcome.ok)] none "boom"
      (by simp) rfl (fun u f h => Option.noConfusion h)).1 (by decide),
   (C3_first_to_terminate String 1 2 3 FOutcome.ok FOutcome.ok [("0.0.0.0", 443)]
      [some (3, FOutcome.err "boom"), some (5, FOutcome.ok)] none "boom"
      (by simp) rfl (fun u f h => Option.noConfusion h)).2.2.2.2⟩

end ToxNode
